import Mathlib

/-
Verification development for Financial-Times/ft-image-inspector (src/main.go).

The program audits FT content for broken image sets.  Its core is:
  - `checkImage` (main.go:122-158): resolve a uuid from the document store,
    reject unrecognized types, reject content whose publishReference lacks
    the "tid_methode_carousel_" marker, and for single-member ImageSets
    resolve the member and flag ErrImageSetBroken when the member's own
    members list contains the member's uuid;
  - `getImagesForContent` (main.go:160-177): for Articles, the image ids
    extracted from the body markup with the mainImage id appended;
  - `collectImageSets` (main.go:232-265): walk the parsed body fragment and
    collect image-set references from ft-content / content elements;
  - `extractUUIDfromURL` (main.go:267-270) and `dedupStrings`
    (main.go:272-282) helpers;
  - the driver loop in `main` (main.go:61-101), which in checking mode
    calls `checkImage` on every deduplicated image id of each Article.

The remote document store is modelled as a deterministic partial map
`String → Option Content` (one run of the program; resolution either
yields the record or fails).  HTTP, JSON decoding and the golang.org/x/net
HTML tokenizer are external collaborators; a record's body markup is
modelled as the already-parsed fragment node list that
`html.ParseFragment` returns (parsing an in-memory string never returns
an error, so `getImageSetFromBody`'s error path is dead).
-/

namespace ImageInspector

/-- Character-list model of Go `strings.HasPrefix`. -/
def startsWith : List Char → List Char → Bool
  | _, [] => true
  | [], _ :: _ => false
  | c :: s, p :: ps => c = p && startsWith s ps

/-- Character-list model of Go `strings.Contains`: some suffix of `s`
starts with `sub`. -/
def containsSeq : List Char → List Char → Bool
  | [], sub => startsWith [] sub
  | c :: rest, sub => startsWith (c :: rest) sub || containsSeq rest sub

/-- Go `strings.Contains(s, sub)` on Lean strings. -/
def goContains (s sub : String) : Bool :=
  containsSeq s.data sub.data

/-- The provenance marker checked at main.go:134. -/
def marker : String := "tid_methode_carousel_"

/-- One entry of a Content's `members` array (main.go:29-31). -/
structure Member where
  uuid : String
deriving DecidableEq, Repr

/-- One attribute of an HTML node (`html.Attribute`, key/value). -/
structure GoAttr where
  key : String
  val : String
deriving DecidableEq, Repr

/-- A node of the parsed HTML fragment (`html.Node`): whether it is an
element node, its tag name (`Data`), attributes and children. -/
inductive HNode where
  | mk (isElement : Bool) (data : String) (attr : List GoAttr)
      (children : List HNode)

/-- The resolved content record (main.go:25-35).  `body` is the parsed
body fragment (the raw Body/BodyXML string fed through
`html.ParseFragment`, an external library call). -/
structure Content where
  uuid : String
  mainImage : String
  type : String
  members : List Member
  body : List HNode
  publishReference : String

/-- Character-list model of Go `strings.Split(s, "/")` (main.go:268):
never empty, one segment per run between slashes. -/
def splitSlash : List Char → List (List Char)
  | [] => [[]]
  | c :: rest =>
    let r := splitSlash rest
    if c = '/' then [] :: r
    else
      match r with
      | [] => [[c]]
      | seg :: segs => (c :: seg) :: segs

/-- main.go:267-270: take the segment after the last '/'.  The Go code
indexes `items[len(items)-1]`; `getLastD` models that access (the
default is never reached, see the totality theorem). -/
def extractUUIDfromURL (URL : String) : String :=
  String.mk ((splitSlash URL.data).getLastD [])

/-- The ImageSet ontology URI matched at main.go:238. -/
def imageSetOntology : String := "http://www.ft.com/ontology/content/ImageSet"

/-- The inner attribute loop of `collectImageSets` (main.go:243-256):
walk the attributes in order; stop with nothing if the element is not an
image-set reference; on the first `url` attribute take the trailing URL
segment, on the first `id` attribute take the raw value, and stop. -/
def pickAttr (hasImageSet : Bool) : List GoAttr → List String
  | [] => []
  | a :: rest =>
    if ¬ hasImageSet then []
    else if a.key = "url" then [extractUUIDfromURL a.val]
    else if a.key = "id" then [a.val]
    else pickAttr hasImageSet rest

/-- The per-node reference logic of `collectImageSets` (main.go:235-257):
only element nodes named ft-content or content carrying a type attribute
equal to the ImageSet ontology URI yield a reference. -/
def nodeOwnRefs (isElement : Bool) (data : String) (attrs : List GoAttr) :
    List String :=
  if isElement = true ∧ (data = "ft-content" ∨ data = "content") then
    pickAttr (attrs.any fun a => a.key == "type" && a.val == imageSetOntology)
      attrs
  else []

mutual

/-- References of one node: its own plus (in document order) those of its
children.  `collectImageSets [child]` in the Go code (main.go:260) is
exactly the one-node case. -/
def collectOne : HNode → List String
  | .mk isElement data attr children =>
    nodeOwnRefs isElement data attr ++ collectMany children

/-- References of a node list, in order (main.go:232-265). -/
def collectMany : List HNode → List String
  | [] => []
  | n :: rest => collectOne n ++ collectMany rest

end

/-- main.go:232-265, entry point on the parsed fragment's node list. -/
def collectImageSets (nodeList : List HNode) : List String :=
  collectMany nodeList

/-- main.go:272-282.  The Go code inserts every id into a map and then
iterates the map's keys, whose order Go leaves unspecified; the model
canonicalizes to first-occurrence order, which realizes the same set. -/
def dedupStrings (uuids : List String) : List String :=
  uuids.foldl (fun acc id => if id ∈ acc then acc else acc ++ [id]) []

/-- The error values `checkImage` can produce (main.go:117-120 and the
fmt.Errorf sites).  `memberResolutionFailed` is the wrapped error of
main.go:149; `errors.Is` does not identify it with `ErrImageSetBroken`
or `ErrContentNotPublishedByConverter`. -/
inductive CheckError where
  | resolutionFailed (uuid : String)
  | unexpectedType (uuid ty : String)
  | notPublishedByConverter
  | imageSetBroken
  | memberResolutionFailed (memberUUID uuid : String)
deriving DecidableEq, Repr

/-- main.go:122-158, `checkImage`, over a document store modelled as a
deterministic partial map.  Returns the `(*Content, error)` pair. -/
def checkImage (store : String → Option Content) (uuid : String) :
    Option Content × Option CheckError :=
  match store uuid with
  | none => (none, some (.resolutionFailed uuid))
  | some c =>
    if c.type = "Image" ∨ c.type = "ImageSet" ∨ c.type = "Graphic" then
      if ¬ goContains c.publishReference marker then
        (some c, some .notPublishedByConverter)
      else if c.type ≠ "ImageSet" then (some c, none)
      else
        match c.members with
        | [member] =>
          match store member.uuid with
          | none => (none, some (.memberResolutionFailed member.uuid uuid))
          | some m =>
            if m.members.any (fun inM => inM.uuid == member.uuid) then
              (some m, some .imageSetBroken)
            else (some c, none)
        | _ => (some c, none)
    else (none, some (.unexpectedType uuid c.type))

/-- Result of `getImagesForContent` (main.go:160-177): an error, the
`(nil, nil)` return for non-Articles, or the image id list. -/
inductive ImagesResult where
  | fetchErr
  | nilImages
  | images (l : List String)
deriving Repr

/-- main.go:211-230: parse the body (external library, modelled as the
stored fragment) and collect the image-set references. -/
def getImageSetFromBody (c : Content) : List String :=
  collectImageSets c.body

/-- main.go:160-177: for Articles, the body's image-set references with
the mainImage id appended. -/
def getImagesForContent (store : String → Option Content) (uuid : String) :
    ImagesResult :=
  match store uuid with
  | none => .fetchErr
  | some c =>
    if c.type ≠ "Article" then .nilImages
    else .images (getImageSetFromBody c ++ [c.mainImage])

/-- main.go:63-101, one seed id in checking mode: the deduplicated image
ids on which the driver invokes `checkImage` (errors and non-Articles
contribute nothing). -/
def checkedImages (store : String → Option Content) (id : String) :
    List String :=
  match getImagesForContent store id with
  | .fetchErr => []
  | .nilImages => []
  | .images l => dedupStrings l

/-- main.go:78-99: the driver calls `checkImage` on every element of the
deduplicated list — an error makes it `continue`, never break. -/
def imageVerdicts (store : String → Option Content) (id : String) :
    List (String × (Option Content × Option CheckError)) :=
  (checkedImages store id).map fun u => (u, checkImage store u)

/-- main.go:180: the document-store request URL is the base URL with the
uuid appended directly. -/
def requestURL (docStoreURL uuid : String) : String :=
  docStoreURL ++ uuid

/-- Modelled from the claim's words (C2): the first-failure-wins
aggregate of verifying each member identifier independently with
`checkImage`, iterating members in order and stopping at the first
non-Safe verdict.  Stated for comparison with what `checkImage` actually
computes; the code has no such loop. -/
def specFirstFailureAggregate (store : String → Option Content) :
    List Member → Option CheckError
  | [] => none
  | mem :: rest =>
    match (checkImage store mem.uuid).2 with
    | some e => some e
    | none => specFirstFailureAggregate store rest

/-- Modelled from the claim's words (C5, amended): the reference yielded
by a qualifying element is decided by the first attribute whose key is
url or id — a url attribute yields the trailing path segment of its
value, an id attribute yields its raw value. -/
def firstRefAttr : List GoAttr → Option String
  | [] => none
  | a :: rest =>
    if a.key = "url" then some (extractUUIDfromURL a.val)
    else if a.key = "id" then some a.val
    else firstRefAttr rest

/-- Shorthand for building a body-less content record. -/
def mkRec (u ty prov : String) (mems : List Member) : Content :=
  { uuid := u, mainImage := "", type := ty, members := mems, body := [],
    publishReference := prov }

/-- A publishReference that contains the expected marker. -/
def okProv : String := "tid_methode_carousel_500"

/-- Record for the C1 counterexample: a self-membered ImageSet whose
publishReference lacks the marker. -/
def cex1Rec : Content := mkRec "a1" "ImageSet" "" [⟨"a1"⟩]

/-- Store for the C1 counterexample. -/
def cex1Store : String → Option Content := fun id =>
  if id = "a1" then some cex1Rec else none

/-- Record for the C1 witness: a self-membered ImageSet with good
provenance. -/
def wit1Rec : Content := mkRec "w1" "ImageSet" okProv [⟨"w1"⟩]

/-- Store for the C1 witness. -/
def wit1Store : String → Option Content := fun id =>
  if id = "w1" then some wit1Rec else none

/-- Record for C2: a two-member ImageSet with good provenance whose
first member does not resolve. -/
def cex2Set : Content := mkRec "s2" "ImageSet" okProv [⟨"b2"⟩, ⟨"g2"⟩]

/-- The resolvable second member for C2. -/
def cex2Img : Content := mkRec "g2" "Image" okProv []

/-- Store for C2: "b2" does not resolve. -/
def cex2Store : String → Option Content := fun id =>
  if id = "s2" then some cex2Set
  else if id = "g2" then some cex2Img
  else none

/-- Record for the C3 counterexample: unrecognized type and a
publishReference lacking the marker. -/
def cex3Rec : Content := mkRec "v3" "Video" "" []

/-- Store for the C3 counterexample. -/
def cex3Store : String → Option Content := fun id =>
  if id = "v3" then some cex3Rec else none

/-- Record for the C3 witness: recognized type, bad provenance. -/
def wit3Rec : Content := mkRec "w3" "Image" "" []

/-- Store for the C3 witness. -/
def wit3Store : String → Option Content := fun id =>
  if id = "w3" then some wit3Rec else none

/-- Record for the C6 counterexample: an Article handed to
`checkImage`. -/
def cex6Rec : Content := mkRec "a6" "Article" okProv []

/-- Store for the C6 counterexample. -/
def cex6Store : String → Option Content := fun id =>
  if id = "a6" then some cex6Rec else none

/-- Record for the C6 witness: an unrecognized Video type. -/
def wit6Rec : Content := mkRec "v6" "Video" okProv []

/-- Store for the C6 witness. -/
def wit6Store : String → Option Content := fun id =>
  if id = "v6" then some wit6Rec else none

/-- Parent ImageSet for the C8 counterexample: bad provenance, single
member "m8". -/
def cex8Set : Content := mkRec "s8" "ImageSet" "" [⟨"m8"⟩]

/-- Member record for the C8 counterexample: its members list contains
its own uuid. -/
def cex8Mem : Content := mkRec "m8" "ImageSet" okProv [⟨"m8"⟩]

/-- Store for the C8 counterexample. -/
def cex8Store : String → Option Content := fun id =>
  if id = "s8" then some cex8Set
  else if id = "m8" then some cex8Mem
  else none

/-- Parent ImageSet for the C8 witness: good provenance, single member
"m8w". -/
def wit8Set : Content := mkRec "s8w" "ImageSet" okProv [⟨"m8w"⟩]

/-- Member record for the C8 witness: contains its own uuid. -/
def wit8Mem : Content := mkRec "m8w" "ImageSet" okProv [⟨"m8w"⟩]

/-- Store for the C8 witness. -/
def wit8Store : String → Option Content := fun id =>
  if id = "s8w" then some wit8Set
  else if id = "m8w" then some wit8Mem
  else none

/-- Attributes of the C5 counterexample node: the id attribute comes
before the url attribute. -/
def cex5Attrs : List GoAttr :=
  [⟨"type", imageSetOntology⟩, ⟨"id", "abc"⟩, ⟨"url", "http://h/def"⟩]

/-- The C5 counterexample node: a qualifying element carrying both url
and id attributes, id first. -/
def cex5Node : HNode := HNode.mk true "ft-content" cex5Attrs []

/-- Attributes of the C5 witness node: type then url. -/
def wit5Attrs : List GoAttr :=
  [⟨"type", imageSetOntology⟩, ⟨"url", "a/b/w5"⟩]

/-- A body node referencing an image set by its id attribute. -/
def refNode (ident : String) : HNode :=
  HNode.mk true "ft-content" [⟨"type", imageSetOntology⟩, ⟨"id", ident⟩] []

/-- Article for the C4 counterexample: body references "bad4" (which
does not resolve) and then "good4"; empty mainImage. -/
def cex4Art : Content :=
  { uuid := "art4", mainImage := "", type := "Article", members := [],
    body := [refNode "bad4", refNode "good4"], publishReference := okProv }

/-- The resolvable image behind "good4". -/
def cex4Img : Content := mkRec "good4" "Image" okProv []

/-- Store for the C4 counterexample: "bad4" does not resolve. -/
def cex4Store : String → Option Content := fun id =>
  if id = "art4" then some cex4Art
  else if id = "good4" then some cex4Img
  else none

/-- Article for the C4 witness: one body reference and a mainImage. -/
def wit4Art : Content :=
  { uuid := "art4w", mainImage := "m4", type := "Article", members := [],
    body := [refNode "x4"], publishReference := okProv }

/-- Store for the C4 witness. -/
def wit4Store : String → Option Content := fun id =>
  if id = "art4w" then some wit4Art else none

/-- Article for the C9 witness: empty body and empty mainImage. -/
def wit9Art : Content :=
  { uuid := "art9", mainImage := "", type := "Article", members := [],
    body := [], publishReference := okProv }

/-- Store for the C9 witness. -/
def wit9Store : String → Option Content := fun id =>
  if id = "art9" then some wit9Art else none

/-- Membership after the dedup fold: an element is in the result exactly
when it is in the accumulator or in the remaining input. -/
theorem mem_dedupFold (l : List String) (acc : List String) (x : String) :
    (x ∈ l.foldl (fun acc id => if id ∈ acc then acc else acc ++ [id]) acc) ↔
      x ∈ acc ∨ x ∈ l := by
  induction l generalizing acc with
  | nil => simp
  | cons a t ih =>
    simp only [List.foldl_cons]
    by_cases h : a ∈ acc
    · rw [if_pos h, ih, List.mem_cons]
      constructor
      · rintro (hx | hx)
        · exact Or.inl hx
        · exact Or.inr (Or.inr hx)
      · rintro (hx | hx | hx)
        · exact Or.inl hx
        · exact Or.inl (hx ▸ h)
        · exact Or.inr hx
    · rw [if_neg h, ih, List.mem_append, List.mem_singleton, List.mem_cons]
      tauto

/-- The dedup fold preserves freedom from duplicates. -/
theorem nodup_dedupFold (l : List String) (acc : List String)
    (hacc : acc.Nodup) :
    (l.foldl (fun acc id => if id ∈ acc then acc else acc ++ [id]) acc).Nodup := by
  induction l generalizing acc with
  | nil => simpa
  | cons a t ih =>
    simp only [List.foldl_cons]
    by_cases h : a ∈ acc
    · rw [if_pos h]; exact ih acc hacc
    · rw [if_neg h]
      refine ih _ ?_
      rw [List.nodup_append]
      exact ⟨hacc, List.nodup_singleton a, by simpa using h⟩

/-- Membership in `dedupStrings` is membership in the input. -/
theorem mem_dedupStrings (l : List String) (x : String) :
    x ∈ dedupStrings l ↔ x ∈ l := by
  rw [dedupStrings, mem_dedupFold]
  simp

/-- The output of `dedupStrings` has no duplicates. -/
theorem nodup_dedupStrings (l : List String) : (dedupStrings l).Nodup :=
  nodup_dedupFold l [] List.nodup_nil

/-- C7: `dedupStrings` is a true set operation — its output has no
duplicate elements and its underlying set is exactly the set of elements
of the input (in particular dedup of ["a","b","a"] realizes the set
consisting of "a" and "b"); the output order is an artifact of the
model's canonicalization (Go's map iteration order is unspecified). -/
theorem c7_theorem (l : List String) :
    (dedupStrings l).Nodup ∧ (∀ x, x ∈ dedupStrings l ↔ x ∈ l) :=
  ⟨nodup_dedupStrings l, fun x => mem_dedupStrings l x⟩

/-- `splitSlash` never returns the empty list (Go `strings.Split` always
yields at least one segment). -/
theorem splitSlash_ne_nil (s : List Char) : splitSlash s ≠ [] := by
  cases s with
  | nil => simp [splitSlash]
  | cons c rest =>
    rw [splitSlash]
    by_cases h : c = '/'
    · simp [h]
    · simp only [if_neg h]
      cases splitSlash rest with
      | nil => simp
      | cons seg segs => simp

/-- Splitting a character list that ends in '/' yields a list whose last
segment is empty, with at least one segment before it. -/
theorem splitSlash_concat_slash (xs : List Char) :
    ∃ init, init ≠ [] ∧ splitSlash (xs ++ ['/']) = init ++ [[]] := by
  induction xs with
  | nil =>
    refine ⟨[[]], by simp, ?_⟩
    simp [splitSlash]
  | cons c rest ih =>
    obtain ⟨init, hne, heq⟩ := ih
    by_cases h : c = '/'
    · refine ⟨[] :: init, by simp, ?_⟩
      rw [List.cons_append, splitSlash]
      simp [h, heq]
    · cases init with
      | nil => exact absurd rfl hne
      | cons i0 irest =>
        refine ⟨(c :: i0) :: irest, by simp, ?_⟩
        rw [List.cons_append, splitSlash]
        simp only [if_neg h, heq, List.cons_append]

/-- C10: `extractUUIDfromURL` is total — splitting on '/' always yields
at least one segment so the `items[len(items)-1]` access is in bounds,
the empty string maps to the empty string, and any URL ending in '/'
maps to the empty string rather than failing. -/
theorem c10_theorem (URL : String) :
    splitSlash URL.data ≠ [] ∧
    (∃ h : splitSlash URL.data ≠ [],
        extractUUIDfromURL URL = String.mk ((splitSlash URL.data).getLast h)) ∧
    extractUUIDfromURL "" = "" ∧
    (∀ pre, URL = pre ++ "/" → extractUUIDfromURL URL = "") := by
  refine ⟨splitSlash_ne_nil _, ⟨splitSlash_ne_nil _, ?_⟩, rfl, ?_⟩
  · rw [extractUUIDfromURL, List.getLastD_eq_getLast?,
      List.getLast?_eq_getLast _ (splitSlash_ne_nil _), Option.getD_some]
  · rintro pre rfl
    rw [extractUUIDfromURL]
    have hdata : (pre ++ "/").data = pre.data ++ ['/'] := by
      cases pre with
      | mk predata => rfl
    rw [hdata]
    obtain ⟨init, _, heq⟩ := splitSlash_concat_slash pre.data
    rw [heq, List.getLastD_concat]

/-- Concrete instance of the totality theorem at the input "abc/". -/
theorem c10_witness :
    splitSlash (String.data "abc/") ≠ [] ∧
    (∃ h : splitSlash (String.data "abc/") ≠ [],
        extractUUIDfromURL "abc/" =
          String.mk ((splitSlash (String.data "abc/")).getLast h)) ∧
    extractUUIDfromURL "" = "" ∧
    extractUUIDfromURL "abc/" = "" := by
  have h := c10_theorem "abc/"
  exact ⟨h.1, h.2.1, h.2.2.1, h.2.2.2 "abc" rfl⟩

/-- Reduction of `checkImage` on a resolved single-member ImageSet with
good provenance: the verdict is decided by the member lookup. -/
theorem checkImage_singleton_reduce (store : String → Option Content)
    (uuid : String) (c : Content) (mem : Member)
    (h1 : store uuid = some c) (h2 : c.type = "ImageSet")
    (h3 : goContains c.publishReference marker = true)
    (h4 : c.members = [mem]) :
    checkImage store uuid =
      (match store mem.uuid with
       | none => (none, some (CheckError.memberResolutionFailed mem.uuid uuid))
       | some m =>
         if m.members.any (fun inM => inM.uuid == mem.uuid) then
           (some m, some CheckError.imageSetBroken)
         else (some c, none)) := by
  simp only [checkImage, h1]
  rw [if_pos (Or.inr (Or.inl h2)), if_neg (by simp [h3]), if_neg (by simp [h2]),
    h4]

/-- C1 (amended): for every ImageSet record whose publishReference
contains the marker and whose single member's identifier equals the
ImageSet's own id, `checkImage` returns ErrImageSetBroken (the member
re-resolves to the same record, whose members list contains it). -/
theorem c1_theorem (store : String → Option Content) (uuid : String)
    (c : Content) (h1 : store uuid = some c) (h2 : c.type = "ImageSet")
    (h3 : goContains c.publishReference marker = true)
    (h4 : c.members = [⟨uuid⟩]) :
    (checkImage store uuid).2 = some CheckError.imageSetBroken := by
  rw [checkImage_singleton_reduce store uuid c ⟨uuid⟩ h1 h2 h3 h4]
  simp only [h1]
  rw [if_pos (by simp [h4])]

/-- C1 witness: the self-membered ImageSet "w1" with good provenance is
flagged broken. -/
theorem c1_witness :
    (checkImage wit1Store "w1").2 = some CheckError.imageSetBroken :=
  c1_theorem wit1Store "w1" wit1Rec rfl rfl (by decide) rfl

/-- C1 counterexample: a self-membered single-member ImageSet whose
publishReference lacks the marker gets the provenance verdict, not
ErrImageSetBroken, so the claim's "regardless" clause fails. -/
theorem c1_counterexample :
    cex1Rec.type = "ImageSet" ∧ cex1Rec.members = [⟨"a1"⟩] ∧
    cex1Store "a1" = some cex1Rec ∧
    (checkImage cex1Store "a1").2 = some CheckError.notPublishedByConverter ∧
    (checkImage cex1Store "a1").2 ≠ some CheckError.imageSetBroken :=
  ⟨by decide, by decide, rfl, by decide, by decide⟩

/-- C2 (amended): for every resolved ImageSet record with marker-bearing
provenance and a number of members different from one, `checkImage`
returns the Safe verdict without inspecting any member: the
single-member broken-set check never fires. -/
theorem c2_theorem (store : String → Option Content) (uuid : String)
    (c : Content) (h1 : store uuid = some c) (h2 : c.type = "ImageSet")
    (h3 : goContains c.publishReference marker = true)
    (h4 : c.members.length ≠ 1) :
    checkImage store uuid = (some c, none) := by
  simp only [checkImage, h1]
  rw [if_pos (Or.inr (Or.inl h2)), if_neg (by simp [h3]), if_neg (by simp [h2])]
  rcases hm : c.members with _ | ⟨m0, _ | ⟨m1, t⟩⟩
  · rfl
  · exact absurd (by rw [hm]; rfl) h4
  · rfl

/-- C2 witness: the two-member ImageSet "s2" comes back Safe even though
its first member does not resolve. -/
theorem c2_witness : checkImage cex2Store "s2" = (some cex2Set, none) :=
  c2_theorem cex2Store "s2" cex2Set rfl rfl (by decide) (by decide)

/-- C2 counterexample: for the two-member ImageSet "s2" the code returns
Safe, while the claim's first-failure-wins aggregate over the members is
a resolution failure for "b2" — the members are never verified. -/
theorem c2_counterexample :
    cex2Store "s2" = some cex2Set ∧
    cex2Set.type = "ImageSet" ∧
    cex2Set.members = [⟨"b2"⟩, ⟨"g2"⟩] ∧
    goContains cex2Set.publishReference marker = true ∧
    (checkImage cex2Store "s2").2 = none ∧
    specFirstFailureAggregate cex2Store cex2Set.members =
      some (CheckError.resolutionFailed "b2") :=
  ⟨rfl, by decide, by decide, by decide, by decide, by decide⟩

/-- C3 (amended): for every resolved record of recognized type (Image,
ImageSet or Graphic) whose publishReference does not contain the marker,
`checkImage` returns ErrContentNotPublishedByConverter immediately —
before any of the ImageSet member logic, so no member is resolved.  The
provenance check follows the type-recognition switch, not the other way
round. -/
theorem c3_theorem (store : String → Option Content) (uuid : String)
    (c : Content) (h1 : store uuid = some c)
    (h2 : c.type = "Image" ∨ c.type = "ImageSet" ∨ c.type = "Graphic")
    (h3 : goContains c.publishReference marker = false) :
    checkImage store uuid = (some c, some CheckError.notPublishedByConverter) := by
  simp only [checkImage, h1]
  rw [if_pos h2, if_pos (by simp [h3])]

/-- C3 witness: the Image "w3" with empty publishReference gets the
provenance verdict. -/
theorem c3_witness :
    checkImage wit3Store "w3" =
      (some wit3Rec, some CheckError.notPublishedByConverter) :=
  c3_theorem wit3Store "w3" wit3Rec rfl (Or.inl rfl) (by decide)

/-- C3 counterexample: a record of unrecognized type "Video" with a
marker-less publishReference gets the unexpected-type verdict, not the
provenance one — the type switch precedes the provenance check. -/
theorem c3_counterexample :
    cex3Store "v3" = some cex3Rec ∧
    goContains cex3Rec.publishReference marker = false ∧
    (checkImage cex3Store "v3").2 = some (CheckError.unexpectedType "v3" "Video") ∧
    (checkImage cex3Store "v3").2 ≠ some CheckError.notPublishedByConverter :=
  ⟨rfl, by decide, by decide, by decide⟩

/-- C6 (amended): the enumeration `checkImage` recognizes is Image,
ImageSet and Graphic: a resolved record of any other type — including
Article — yields the unexpected-type verdict, and a record of one of the
three recognized types never does. -/
theorem c6_theorem (store : String → Option Content) (uuid : String)
    (c : Content) (h1 : store uuid = some c) :
    (¬(c.type = "Image" ∨ c.type = "ImageSet" ∨ c.type = "Graphic") →
      checkImage store uuid = (none, some (CheckError.unexpectedType uuid c.type))) ∧
    ((c.type = "Image" ∨ c.type = "ImageSet" ∨ c.type = "Graphic") →
      ∀ u t, (checkImage store uuid).2 ≠ some (CheckError.unexpectedType u t)) := by
  constructor
  · intro hrec
    simp only [checkImage, h1]
    rw [if_neg hrec]
  · intro hrec u t
    simp only [checkImage, h1]
    rw [if_pos hrec]
    repeat' split
    all_goals simp

/-- C6 witness: the unrecognized type "Video" yields the unexpected-type
verdict. -/
theorem c6_witness :
    checkImage wit6Store "v6" =
      (none, some (CheckError.unexpectedType "v6" wit6Rec.type)) :=
  (c6_theorem wit6Store "v6" wit6Rec rfl).1 (by decide)

/-- C6 counterexample: an Article record handed to `checkImage` yields
the unexpected-type verdict, although the claim lists Article among the
recognized enumeration. -/
theorem c6_counterexample :
    cex6Store "a6" = some cex6Rec ∧
    cex6Rec.type = "Article" ∧
    (checkImage cex6Store "a6").2 = some (CheckError.unexpectedType "a6" "Article") :=
  ⟨rfl, by decide, by decide⟩

/-- C8 (amended): for every resolved single-member ImageSet with
marker-bearing provenance, when the member resolves `checkImage` flags
ErrImageSetBroken exactly when the member record's own members list
contains the member's identifier (the parent's id plays no role), and
when the member fails to resolve the result is the wrapped member
resolution error, not the Broken verdict. -/
theorem c8_theorem (store : String → Option Content) (uuid : String)
    (c : Content) (mem : Member) (h1 : store uuid = some c)
    (h2 : c.type = "ImageSet")
    (h3 : goContains c.publishReference marker = true)
    (h4 : c.members = [mem]) :
    (∀ m, store mem.uuid = some m →
      ((checkImage store uuid).2 = some CheckError.imageSetBroken ↔
        ∃ inM ∈ m.members, inM.uuid = mem.uuid)) ∧
    (store mem.uuid = none →
      checkImage store uuid =
        (none, some (CheckError.memberResolutionFailed mem.uuid uuid))) := by
  have hred := checkImage_singleton_reduce store uuid c mem h1 h2 h3 h4
  constructor
  · intro m hm
    rw [hred]
    simp only [hm]
    by_cases hany : (m.members.any fun inM => inM.uuid == mem.uuid) = true
    · rw [if_pos hany]
      constructor
      · intro _
        simpa using List.any_eq_true.mp hany
      · intro _
        rfl
    · rw [if_neg hany]
      constructor
      · intro hcontra
        simp at hcontra
      · intro hex
        exact absurd (List.any_eq_true.mpr (by simpa using hex)) hany
  · intro hm
    rw [hred, hm]

/-- C8 witness: the ImageSet "s8w" whose member "m8w" lists itself among
its own members is flagged broken. -/
theorem c8_witness :
    (checkImage wit8Store "s8w").2 = some CheckError.imageSetBroken :=
  ((c8_theorem wit8Store "s8w" wit8Set ⟨"m8w"⟩ rfl rfl (by decide) rfl).1
      wit8Mem rfl).mpr ⟨⟨"m8w"⟩, by decide, rfl⟩

/-- C8 counterexample: with a marker-less parent publishReference the
result is the provenance verdict even though the resolved member's
members list contains the member's identifier, so the claim as stated
(with no provenance condition) fails. -/
theorem c8_counterexample :
    cex8Store "s8" = some cex8Set ∧
    cex8Set.type = "ImageSet" ∧
    cex8Set.members = [⟨"m8"⟩] ∧
    cex8Store "m8" = some cex8Mem ∧
    (cex8Mem.members.any fun inM => inM.uuid == "m8") = true ∧
    (checkImage cex8Store "s8").2 = some CheckError.notPublishedByConverter ∧
    (checkImage cex8Store "s8").2 ≠ some CheckError.imageSetBroken :=
  ⟨rfl, by decide, by decide, rfl, by decide, by decide, by decide⟩

/-- The attribute loop with the image-set flag set picks exactly the
first url-or-id attribute. -/
theorem pickAttr_true (attrs : List GoAttr) :
    pickAttr true attrs = (firstRefAttr attrs).toList := by
  induction attrs with
  | nil => rfl
  | cons a rest ih =>
    rw [pickAttr, firstRefAttr]
    by_cases hu : a.key = "url"
    · rw [if_neg (by simp), if_pos hu, if_pos hu]
      rfl
    · rw [if_neg (by simp), if_neg hu, if_neg hu]
      by_cases hi : a.key = "id"
      · rw [if_pos hi, if_pos hi]
        rfl
      · rw [if_neg hi, if_neg hi, ih]

/-- C5 (amended): for a qualifying ft-content/content element carrying
the ImageSet ontology type attribute, the extracted reference is decided
by the first attribute whose key is url or id, in attribute order — a
url attribute contributes the trailing path segment after the last '/',
an id attribute its raw value; with neither attribute the element yields
no reference (and the walk continues into the children either way). -/
theorem c5_theorem (isElement : Bool) (data : String) (attrs : List GoAttr)
    (children : List HNode) (h1 : isElement = true)
    (h2 : data = "ft-content" ∨ data = "content")
    (h3 : (attrs.any fun a => a.key == "type" && a.val == imageSetOntology) = true) :
    collectImageSets [HNode.mk isElement data attrs children] =
      (firstRefAttr attrs).toList ++ collectImageSets children := by
  show collectMany [HNode.mk isElement data attrs children] = _
  rw [collectMany, collectOne, collectMany, List.append_nil]
  simp only [nodeOwnRefs]
  rw [if_pos ⟨h1, h2⟩, h3, pickAttr_true]
  rfl

/-- C5 witness: a qualifying element whose only reference attribute is a
url yields the url's trailing segment. -/
theorem c5_witness :
    collectImageSets [HNode.mk true "content" wit5Attrs []] =
      (firstRefAttr wit5Attrs).toList ++ collectImageSets [] :=
  c5_theorem true "content" wit5Attrs [] rfl (Or.inr rfl) (by decide)

/-- C5 counterexample: on a qualifying element carrying both attributes
with id first, extraction returns the raw id value "abc", not the
trailing segment "def" of the url — the url attribute is not
preferred. -/
theorem c5_counterexample :
    (cex5Attrs.any fun a => a.key == "url") = true ∧
    collectImageSets [cex5Node] = ["abc"] ∧
    extractUUIDfromURL "http://h/def" = "def" ∧
    ("abc" : String) ≠ "def" :=
  ⟨by decide, by decide, by decide, by decide⟩

/-- Reduction of `getImagesForContent` on a resolved Article. -/
theorem getImagesForContent_article (store : String → Option Content)
    (id : String) (c : Content) (h1 : store id = some c)
    (h2 : c.type = "Article") :
    getImagesForContent store id =
      ImagesResult.images (collectImageSets c.body ++ [c.mainImage]) := by
  simp only [getImagesForContent, h1]
  rw [if_neg (by simp [h2])]
  rfl

/-- C4 (amended): for every resolved Article, the set of identifiers the
driver verifies is exactly the deduplicated union of the identifiers
extracted from the body markup and the mainImage id — and every one of
them is verified: the loop records failures and continues, it does not
stop at the first non-Safe verdict. -/
theorem c4_theorem (store : String → Option Content) (id : String)
    (c : Content) (h1 : store id = some c) (h2 : c.type = "Article") :
    (∀ x, x ∈ checkedImages store id ↔
      (x ∈ collectImageSets c.body ∨ x = c.mainImage)) ∧
    (checkedImages store id).Nodup ∧
    (∀ x, (x ∈ collectImageSets c.body ∨ x = c.mainImage) →
      (x, checkImage store x) ∈ imageVerdicts store id) := by
  have hchk : checkedImages store id =
      dedupStrings (collectImageSets c.body ++ [c.mainImage]) := by
    rw [checkedImages, getImagesForContent_article store id c h1 h2]
  have hmem : ∀ x, x ∈ checkedImages store id ↔
      (x ∈ collectImageSets c.body ∨ x = c.mainImage) := by
    intro x
    rw [hchk, mem_dedupStrings, List.mem_append, List.mem_singleton]
  refine ⟨hmem, ?_, ?_⟩
  · rw [hchk]
    exact nodup_dedupStrings _
  · intro x hx
    rw [imageVerdicts]
    exact List.mem_map.mpr ⟨x, (hmem x).mpr hx, rfl⟩

/-- C4 witness: the mainImage "m4" of the witness Article is among the
verified identifiers. -/
theorem c4_witness :
    ("m4" ∈ collectImageSets wit4Art.body ∨ "m4" = wit4Art.mainImage) ∧
    ("m4", checkImage wit4Store "m4") ∈ imageVerdicts wit4Store "art4w" := by
  have h := c4_theorem wit4Store "art4w" wit4Art rfl rfl
  exact ⟨Or.inr (by decide), h.2.2 "m4" (Or.inr (by decide))⟩

/-- C4 counterexample: "bad4" fails to resolve, yet the later
identifiers "good4" and "" are still verified — the loop does not
short-circuit at the first failure. -/
theorem c4_counterexample :
    checkedImages cex4Store "art4" = ["bad4", "good4", ""] ∧
    (checkImage cex4Store "bad4").2 = some (CheckError.resolutionFailed "bad4") ∧
    (imageVerdicts cex4Store "art4").map Prod.fst = ["bad4", "good4", ""] :=
  ⟨by decide, by decide, by decide⟩

/-- C9: for every resolved Article, `getImagesForContent` appends the
mainImage field unconditionally — even when it is the empty string — so
the returned list is never empty; an empty mainImage makes the driver
verify the empty identifier, whose document-store request URL is the
bare base URL. -/
theorem c9_theorem (store : String → Option Content) (id : String)
    (c : Content) (h1 : store id = some c) (h2 : c.type = "Article") :
    getImagesForContent store id =
      ImagesResult.images (collectImageSets c.body ++ [c.mainImage]) ∧
    c.mainImage ∈ collectImageSets c.body ++ [c.mainImage] ∧
    collectImageSets c.body ++ [c.mainImage] ≠ [] ∧
    (c.mainImage = "" → "" ∈ checkedImages store id) ∧
    (∀ d, requestURL d "" = d) := by
  refine ⟨getImagesForContent_article store id c h1 h2, by simp, by simp, ?_, ?_⟩
  · intro hm
    rw [checkedImages, getImagesForContent_article store id c h1 h2,
      mem_dedupStrings]
    simp [hm]
  · intro d
    rw [requestURL]
    cases d with
    | mk ddata =>
      show String.mk (ddata ++ []) = String.mk ddata
      rw [List.append_nil]

/-- C9 witness: the Article "art9" with empty mainImage yields the
one-element list containing the empty identifier, which the driver then
checks against the bare base URL. -/
theorem c9_witness :
    getImagesForContent wit9Store "art9" =
      ImagesResult.images (collectImageSets wit9Art.body ++ [wit9Art.mainImage]) ∧
    "" ∈ checkedImages wit9Store "art9" ∧
    requestURL "http://docstore/" "" = "http://docstore/" := by
  have h := c9_theorem wit9Store "art9" wit9Art rfl rfl
  exact ⟨h.1, h.2.2.2.1 rfl, h.2.2.2.2 "http://docstore/"⟩

end ImageInspector
